import Mathlib

/-!
# Verification of the diaes.js fragment-scheduling engine

Shallow embedding of the core of `diaes.js` (2pulse, obfuscated audio
playback): `Source`, `SourceQueue`, `Reader` and `Manager`, following the
variant in `src/js/lib/diaes.js` (the later revision, which the earlier
`src/diaes.js` variant matches except where noted in comments).

Clock times, buffer durations and offsets are modelled as rationals
(the Web Audio clock `context.currentTime` is an external, monotonically
increasing value read by the code, never written).
-/

namespace Diaes

/-- `FRAGMENT_DURATION = 15.0` (src/js/lib/diaes.js line 1796). -/
def FRAGMENT_DURATION : ℚ := 15

/-- The queue states `STATE_PAUSED = 0`, `STATE_PLAYING = 1`,
`STATE_BUFFERING = 2`, `STATE_FINISHED = 3`. -/
inductive QState where
  | paused
  | playing
  | buffering
  | finished
deriving DecidableEq, Repr

/-- A `Source`: one scheduled playback unit.  `duration` is
`this.buffer.duration` of the decoded audio buffer; `number` is the
fragment number attached by `SourceQueue.push`; `startsAt` is `null`
before `setup` runs (modelled as `0`, never read before `setup` in the
scenarios proved below); `nodeActive` models having a connected
`BufferSource` node, `endTimerSet` a pending `endTimer` timeout. -/
structure Source where
  duration : ℚ
  number : ℕ
  startsAt : ℚ
  startsFrom : ℚ
  nodeActive : Bool
  endTimerSet : Bool
deriving DecidableEq, Repr

instance : Inhabited Source := ⟨⟨0, 0, 0, 0, false, false⟩⟩

/-- `Source.prototype.setup(index)` followed by
`Source.prototype.schedule()` (the two are always invoked together, by
`SourceQueue.push` and `SourceQueue.play`).  `setup` creates and
connects the node and computes `startsAt`:

* `index > 0`: `startsAt = previous.startsAt + previous.buffer.duration
  - previous.startsFrom` where `previous = queue.get(index - 1)`;
* `index == 0`: `startsAt = context.currentTime` (the clock `now`).

`schedule` starts the node and arms the end timer. -/
def Source.setupSchedule (prev : Option Source) (now : ℚ) (s : Source) : Source :=
  match prev with
  | some p =>
      { s with startsAt := p.startsAt + p.duration - p.startsFrom,
               nodeActive := true, endTimerSet := true }
  | none =>
      { s with startsAt := now, nodeActive := true, endTimerSet := true }

/-- `Source.prototype.elapsed()` (src/js/lib variant):
`context.currentTime - startsAt + startsFrom`. -/
def Source.elapsed (now : ℚ) (s : Source) : ℚ :=
  now - s.startsAt + s.startsFrom

/-- `Source.prototype.cancel()`: disconnects the node and clears the end
timer.  (`startsAt` / `startsFrom` / the buffer are untouched.) -/
def Source.cancel (s : Source) : Source :=
  { s with nodeActive := false, endTimerSet := false }

/-- The loop body of `SourceQueue.prototype.play`: sources are set up
and scheduled in queue order, each `setup(i)` reading the `startsAt`
just written into source `i - 1` (`prev`). -/
def setupAll (now : ℚ) : Option Source → List Source → List Source
  | _, [] => []
  | prev, s :: rest =>
      let s' := s.setupSchedule prev now
      s' :: setupAll now (some s') rest

/-- A `SourceQueue`.  The constructor sets `state = STATE_PAUSED`,
`sources = []`, `latestElapsed = 0`. -/
structure SourceQueue where
  state : QState
  sources : List Source
  latestElapsed : Option ℚ
deriving DecidableEq, Repr

/-- The freshly constructed queue. -/
def SourceQueue.init : SourceQueue :=
  { state := QState.paused, sources := [], latestElapsed := some 0 }

/-- `SourceQueue.prototype.isEmpty`. -/
def SourceQueue.isEmpty (q : SourceQueue) : Bool :=
  q.sources.length == 0

/-- `SourceQueue.prototype.push(buffer, number, beforeSetup)` searches
`_.find(this.queue, {number: number})` before appending — but the
`SourceQueue` constructor only ever defines `this.sources`; `this.queue`
is `undefined`, and lodash `_.find(undefined, …)` iterates nothing and
returns `undefined`.  This list models that always-empty search target. -/
def undefinedQueueField : List Source := []

/-- `SourceQueue.prototype.push(buffer, number, beforeSetup)`:
creates a source for `buffer` (of duration `dur`), runs the dedup guard
(over the undefined `this.queue` field, see `undefinedQueueField`), tags
it with `number`, appends it, runs `beforeSetup` (which installs the end
callback and, for a truthy offset, sets `startsFrom` — modelled by the
`startsFrom0` argument, which is `0` exactly when the guard `if (offset)`
would skip the assignment), and, if the queue is `Playing`, immediately
sets the source up at index `sources.length` (previous = old last
element) and schedules it. -/
def SourceQueue.push (now dur : ℚ) (number : ℕ) (startsFrom0 : ℚ)
    (q : SourceQueue) : SourceQueue :=
  let source : Source :=
    { duration := dur, number := number, startsAt := 0,
      startsFrom := startsFrom0, nodeActive := false, endTimerSet := false }
  if (undefinedQueueField.find? (fun s => s.number == number)).isSome then
    q
  else if q.state = QState.playing then
    { q with sources := q.sources ++ [source.setupSchedule q.sources.getLast? now] }
  else
    { q with sources := q.sources ++ [source] }

/-- The dedup guard as evidently intended (searching `this.sources`,
the field the constructor actually defines), for comparison with the
behaviour of `SourceQueue.push` as written. -/
def SourceQueue.pushIntended (now dur : ℚ) (number : ℕ) (startsFrom0 : ℚ)
    (q : SourceQueue) : SourceQueue :=
  if (q.sources.find? (fun s => s.number == number)).isSome then
    q
  else
    q.push now dur number startsFrom0

/-- `SourceQueue.prototype.empty`: shifts (destroying each head) until
the queue is empty. -/
def SourceQueue.empty (q : SourceQueue) : SourceQueue :=
  { q with sources := [] }

/-- `SourceQueue.prototype.play`: no-op when `Playing`; when `Finished`
it delegates to `reader.setCurrentTime(0)` (a debounced seek — the queue
itself is unchanged synchronously, modelled here as the identity; the
claims below never apply `play` to a finished queue).  Otherwise clears
`latestElapsed`, enters `Playing`, and sets up and schedules every
queued source in order. -/
def SourceQueue.play (now : ℚ) (q : SourceQueue) : SourceQueue :=
  if q.state = QState.playing then q
  else if q.state = QState.finished then q
  else
    { state := QState.playing, latestElapsed := none,
      sources := setupAll now none q.sources }

/-- `SourceQueue.prototype.pause`: no-op when `Paused`; otherwise
captures the head's `elapsed()` into `latestElapsed` (when non-empty),
enters `Paused`, cancels every source (keeping them all queued), and
sets the head's `startsFrom = head.elapsed()`. -/
def SourceQueue.pause (now : ℚ) (q : SourceQueue) : SourceQueue :=
  if q.state = QState.paused then q
  else
    match q.sources with
    | [] => { q with state := QState.paused }
    | s :: rest =>
        let e := s.elapsed now
        { state := QState.paused,
          latestElapsed := some e,
          sources := { s.cancel with startsFrom := e } :: rest.map Source.cancel }

/-- `SourceQueue.prototype.elapsed`: `latestElapsed` when set, else `0`
for an empty queue, else the head's live `elapsed()`. -/
def SourceQueue.elapsed (now : ℚ) (q : SourceQueue) : ℚ :=
  match q.latestElapsed with
  | some e => e
  | none =>
      match q.sources with
      | [] => 0
      | s :: _ => s.elapsed now

/-- The gapless chaining relation between adjacent scheduled units:
the later starts exactly when the earlier's audible content ends. -/
def Chained (p s : Source) : Prop :=
  s.startsAt = p.startsAt + p.duration - p.startsFrom

instance : DecidablePred fun ps : Source × Source => Chained ps.1 ps.2 :=
  fun _ => inferInstanceAs (Decidable (_ = _))

theorem setupSchedule_duration (prev : Option Source) (now : ℚ) (s : Source) :
    (s.setupSchedule prev now).duration = s.duration := by
  cases prev <;> rfl

theorem setupSchedule_startsFrom (prev : Option Source) (now : ℚ) (s : Source) :
    (s.setupSchedule prev now).startsFrom = s.startsFrom := by
  cases prev <;> rfl

theorem setupAll_chain (now : ℚ) (p : Source) (l : List Source) :
    List.Chain Chained p (setupAll now (some p) l) := by
  induction l generalizing p with
  | nil => exact List.Chain.nil
  | cons s rest ih =>
      refine List.Chain.cons rfl ?_
      exact ih (s.setupSchedule (some p) now)

theorem setupAll_chain' (now : ℚ) (prev : Option Source) (l : List Source) :
    List.Chain' Chained (setupAll now prev l) := by
  cases l with
  | nil => exact List.chain'_nil
  | cons s rest =>
      exact setupAll_chain now (s.setupSchedule prev now) rest

/-- **C1.** Gapless timing rule.  A source set up at queue position `p`
while the queue is `Playing` gets `startsAt = clock.now()` when `p = 0`
and `startsAt = previous.startsAt + previous.duration -
previous.startsFrom` when `p > 0` — both for the `play()` loop
(`setupAll`) and for a `push` onto a playing queue.  Consequently for
any queue of units scheduled while `Playing`,
`u[i+1].startsAt = u[i].startsAt + u[i].duration - u[i].startsFrom`
for every `i`. -/
theorem gapless_timing_rule (now : ℚ) (srcs : List Source) :
    (∀ s : Source, (s.setupSchedule none now).startsAt = now) ∧
    (∀ s p : Source, (s.setupSchedule (some p) now).startsAt
        = p.startsAt + p.duration - p.startsFrom) ∧
    (∀ q : SourceQueue, ∀ dur f : ℚ, ∀ n : ℕ,
      q.state = QState.playing →
        ((q.push now dur n f).sources.getLast? : Option Source).map Source.startsAt
          = some (match q.sources.getLast? with
                  | none => now
                  | some p => p.startsAt + p.duration - p.startsFrom)) ∧
    (∀ i : ℕ, ∀ hi : i + 1 < (setupAll now none srcs).length,
      Chained
        ((setupAll now none srcs).get ⟨i, Nat.lt_of_succ_lt hi⟩)
        ((setupAll now none srcs).get ⟨i + 1, hi⟩)) := by
  refine ⟨fun s => rfl, fun s p => rfl, ?_, ?_⟩
  · intro q dur f n hq
    simp only [SourceQueue.push, undefinedQueueField, List.find?_nil, Option.isSome_none,
      Bool.false_eq_true, if_false, hq, if_true, if_pos trivial]
    rw [List.getLast?_concat]
    cases q.sources.getLast? <;> rfl
  · intro i hi
    have h := (List.chain'_iff_get).mp (setupAll_chain' now none srcs)
    have := h i (by omega)
    simpa using this

/-- **C1 witness.** The chain rule evaluated on a concrete two-source
queue scheduled at clock time `100`. -/
theorem gapless_timing_rule_witness :
    Chained
      ((setupAll 100 none
          [⟨15, 0, 0, 0, false, false⟩, ⟨15, 1, 0, 0, false, false⟩]).get
        ⟨0, by decide⟩)
      ((setupAll 100 none
          [⟨15, 0, 0, 0, false, false⟩, ⟨15, 1, 0, 0, false, false⟩]).get
        ⟨1, by decide⟩) :=
  (gapless_timing_rule 100
      [⟨15, 0, 0, 0, false, false⟩, ⟨15, 1, 0, 0, false, false⟩]).2.2.2 0 (by decide)

/-- **C6.** Pause semantics and resume continuity.  `pause()` on a
`Paused` queue is a no-op; on a playing queue with head `s` it caches
`s.elapsed()` as `latestElapsed`, keeps every unit queued while
cancelling each unit's output node and end timer, and sets the head's
`startsFrom` to its elapsed offset; and the elapsed value read after the
next `play()` equals the elapsed value just before `pause()` plus the
live time accumulated since the `play()` — the continuous elapsed time
had no pause occurred. -/
theorem pause_semantics_resume_continuity
    (q : SourceQueue) (s : Source) (rest : List Source) (t1 t2 t3 : ℚ)
    (hstate : q.state = QState.playing)
    (hsrc : q.sources = s :: rest)
    (hle : q.latestElapsed = none) :
    (∀ q2 : SourceQueue, q2.state = QState.paused → q2.pause t1 = q2) ∧
    (q.pause t1).latestElapsed = some (s.elapsed t1) ∧
    (q.pause t1).state = QState.paused ∧
    (q.pause t1).sources.length = q.sources.length ∧
    (∀ u ∈ (q.pause t1).sources, u.nodeActive = false ∧ u.endTimerSet = false) ∧
    (q.pause t1).sources.head?.map Source.startsFrom = some (s.elapsed t1) ∧
    ((q.pause t1).play t2).elapsed t3 = q.elapsed t1 + (t3 - t2) := by
  have hpause : q.pause t1
      = { state := QState.paused,
          latestElapsed := some (s.elapsed t1),
          sources := { s.cancel with startsFrom := s.elapsed t1 }
                       :: rest.map Source.cancel } := by
    simp [SourceQueue.pause, hstate, hsrc]
  refine ⟨?_, ?_, ?_, ?_, ?_, ?_, ?_⟩
  · intro q2 h2
    simp [SourceQueue.pause, h2]
  · rw [hpause]
  · rw [hpause]
  · rw [hpause, hsrc]
    simp
  · rw [hpause]
    intro u hu
    rcases List.mem_cons.mp hu with h | h
    · subst h; exact ⟨rfl, rfl⟩
    · rcases List.mem_map.mp h with ⟨v, _, rfl⟩
      exact ⟨rfl, rfl⟩
  · rw [hpause]; rfl
  · have hne1 : ¬ (QState.paused = QState.playing) := by decide
    have hne2 : ¬ (QState.paused = QState.finished) := by decide
    have h2 : (q.pause t1).play t2
        = { state := QState.playing, latestElapsed := none,
            sources := setupAll t2 none
              ({ s.cancel with startsFrom := s.elapsed t1 }
                :: rest.map Source.cancel) } := by
      rw [hpause]
      simp [SourceQueue.play, hne1, hne2]
    rw [h2]
    simp [SourceQueue.elapsed, setupAll, Source.setupSchedule, Source.cancel,
      Source.elapsed, hle, hsrc]
    ring

/-- **C6 witness.** A concrete playing queue (head started at clock `10`
with `startsFrom = 2`, one successor), paused at `t1 = 14`, resumed at
`t2 = 20`, observed at `t3 = 23`. -/
theorem pause_semantics_resume_continuity_witness :
    (∀ q2 : SourceQueue, q2.state = QState.paused → q2.pause 14 = q2) ∧
    (SourceQueue.pause 14
        { state := QState.playing,
          sources := [⟨15, 0, 10, 2, true, true⟩, ⟨15, 1, 23, 0, true, true⟩],
          latestElapsed := none }).latestElapsed
      = some (Source.elapsed 14 ⟨15, 0, 10, 2, true, true⟩) ∧
    (SourceQueue.pause 14
        { state := QState.playing,
          sources := [⟨15, 0, 10, 2, true, true⟩, ⟨15, 1, 23, 0, true, true⟩],
          latestElapsed := none }).state = QState.paused ∧
    (SourceQueue.pause 14
        { state := QState.playing,
          sources := [⟨15, 0, 10, 2, true, true⟩, ⟨15, 1, 23, 0, true, true⟩],
          latestElapsed := none }).sources.length
      = ({ state := QState.playing,
           sources := [⟨15, 0, 10, 2, true, true⟩, ⟨15, 1, 23, 0, true, true⟩],
           latestElapsed := none } : SourceQueue).sources.length ∧
    (∀ u ∈ (SourceQueue.pause 14
        { state := QState.playing,
          sources := [⟨15, 0, 10, 2, true, true⟩, ⟨15, 1, 23, 0, true, true⟩],
          latestElapsed := none }).sources,
        u.nodeActive = false ∧ u.endTimerSet = false) ∧
    (SourceQueue.pause 14
        { state := QState.playing,
          sources := [⟨15, 0, 10, 2, true, true⟩, ⟨15, 1, 23, 0, true, true⟩],
          latestElapsed := none }).sources.head?.map Source.startsFrom
      = some (Source.elapsed 14 ⟨15, 0, 10, 2, true, true⟩) ∧
    (SourceQueue.play 20 (SourceQueue.pause 14
        { state := QState.playing,
          sources := [⟨15, 0, 10, 2, true, true⟩, ⟨15, 1, 23, 0, true, true⟩],
          latestElapsed := none })).elapsed 23
      = ({ state := QState.playing,
           sources := [⟨15, 0, 10, 2, true, true⟩, ⟨15, 1, 23, 0, true, true⟩],
           latestElapsed := none } : SourceQueue).elapsed 14 + (23 - 20) :=
  pause_semantics_resume_continuity
    { state := QState.playing,
      sources := [⟨15, 0, 10, 2, true, true⟩, ⟨15, 1, 23, 0, true, true⟩],
      latestElapsed := none }
    ⟨15, 0, 10, 2, true, true⟩ [⟨15, 1, 23, 0, true, true⟩]
    14 20 23 rfl rfl rfl

/-- **C5 (code bug evaluated).** Pushing a second buffer for fragment
number `0` onto a queue that already holds a live source for number `0`
is *not* a no-op: the dedup guard `_.find(this.queue, {number})`
searches the undefined `this.queue` property instead of `this.sources`,
never matches, and the duplicate is appended — the queue then holds two
live sources for index `0`.  The intended guard (over `this.sources`,
`SourceQueue.pushIntended`) would have rejected the duplicate. -/
theorem duplicate_push_appends :
    ((SourceQueue.init.push 5 15 0 0).push 5 15 0 0).sources.length = 2 ∧
    ((SourceQueue.init.push 5 15 0 0).push 5 15 0 0).sources.map Source.number
      = [0, 0] ∧
    (SourceQueue.init.push 5 15 0 0).pushIntended 5 15 0 0
      = SourceQueue.init.push 5 15 0 0 := by
  refine ⟨rfl, rfl, ?_⟩
  simp [SourceQueue.pushIntended, SourceQueue.push, SourceQueue.init, undefinedQueueField]

/-- A fragment descriptor held in `Reader.fragments` after
`fetchMetadata`: `buffer` is `null` until `context.decodeAudioData`
completes (`loaded = true`), at which point it holds a decoded audio
buffer whose duration is `duration`.  The paths / key / iv fields play
no role in the scheduling claims. -/
structure Fragment where
  loaded : Bool
  duration : ℚ
deriving DecidableEq, Repr

/-- An audio `Reader`.  The constructor sets `fragments = []`,
`currentFragmentNumber = 0`, `buffering = false` (then immediately
`true` while metadata loads), `jumped = false`, and a fresh queue. -/
structure Reader where
  fragments : List Fragment
  currentFragmentNumber : ℕ
  buffering : Bool
  jumped : Bool
  queue : SourceQueue
deriving DecidableEq, Repr

/-- `this.fragments[number]` (every access below is guarded by the same
index check the code performs, so the default is never observed). -/
def Reader.fragmentAt (r : Reader) (number : ℕ) : Fragment :=
  r.fragments.getD number ⟨false, 0⟩

/-- `Reader.prototype.isFragmentLoaded`:
`this.fragments[number].buffer !== null`. -/
def Reader.isFragmentLoaded (r : Reader) (number : ℕ) : Bool :=
  (r.fragmentAt number).loaded

/-- The observable outcome of the synchronous part of
`Reader.prototype.loadFragment(number, callback)`:

* `reader` — the reader state when the call returns (the buffer is only
  written by the asynchronous `decodeAudioData` completion, see
  `Reader.loadFragmentComplete`);
* `fetched` — a transport fetch (`fetchFragment`, one `XMLHttpRequest`
  plus one decrypt/decode on arrival) was issued;
* `syncCallback` — `callback(number)` was invoked synchronously. -/
structure LoadStart where
  reader : Reader
  fetched : Bool
  syncCallback : Bool
deriving DecidableEq, Repr

/-- Synchronous part of `Reader.prototype.loadFragment`:
out-of-range (`number >= fragments.length`) returns silently; an
already-loaded fragment invokes the callback synchronously; otherwise a
transport fetch is issued and the call returns, buffer still unset. -/
def Reader.loadFragmentStart (number : ℕ) (r : Reader) : LoadStart :=
  if r.fragments.length ≤ number then
    { reader := r, fetched := false, syncCallback := false }
  else if r.isFragmentLoaded number then
    { reader := r, fetched := false, syncCallback := true }
  else
    { reader := r, fetched := true, syncCallback := false }

/-- Completion of an in-flight load: `decodeAudioData`'s continuation
stores the decoded buffer (`fragments[number].buffer = audioBuffer`)
and then invokes the caller's callback. -/
def Reader.loadFragmentComplete (number : ℕ) (r : Reader) : Reader :=
  { r with fragments :=
      r.fragments.set number { r.fragmentAt number with loaded := true } }

/-- `Reader.prototype.scheduleFragment(number, offset)`: pushes
`fragments[number].buffer` onto the queue tagged with `number`; the
`beforeSetup` hook installs the end callback (whose behaviour is
`Reader.onEnd` below) and sets `startsFrom = offset` when `offset` is
truthy (for the falsy `offset = 0` the field keeps its initial `0`, so
the stored value is `offset` either way). -/
def Reader.scheduleFragment (now : ℚ) (number : ℕ) (offset : ℚ) (r : Reader) : Reader :=
  { r with queue := r.queue.push now (r.fragmentAt number).duration number offset }

/-- `Reader.prototype.getCurrentTime`:
`currentFragmentNumber * FRAGMENT_DURATION + queue.elapsed()`. -/
def Reader.getCurrentTime (now : ℚ) (r : Reader) : ℚ :=
  r.currentFragmentNumber * FRAGMENT_DURATION + r.queue.elapsed now

/-- The observable outcome of the `endCallback` installed by
`scheduleFragment(number, offset)` firing:

* `reader` — the state after the handler runs;
* `finishRaised` — `player.onFinish()` was called;
* `loadInvoked` — `loadFragment` was invoked with this index (always
  `number + 2`, via `loadAndScheduleFragment`);
* `fetchIssued` — that load issued a transport fetch;
* `scheduled` — `scheduleFragment` ran synchronously for this index
  (which happens only when fragment `number + 2` was already loaded). -/
structure EndResult where
  reader : Reader
  finishRaised : Bool
  loadInvoked : ℕ
  fetchIssued : Bool
  scheduled : Option ℕ
deriving DecidableEq, Repr

/-- The `endCallback` of `scheduleFragment(number, _)`:
sets `currentFragmentNumber = number + 1`; if that is `>=
fragments.length`, pauses the queue, overwrites its state with
`STATE_FINISHED` and raises `onFinish`; then (unconditionally) runs
`loadAndScheduleFragment(number + 2)`, whose `loadFragment` either
no-ops out of range, schedules synchronously when already loaded
(offset `undefined`, falsy, so `startsFrom` stays `0`), or issues a
transport fetch. -/
def Reader.onEnd (now : ℚ) (number : ℕ) (r : Reader) : EndResult :=
  let r1 : Reader := { r with currentFragmentNumber := number + 1 }
  let finished := r1.fragments.length ≤ number + 1
  let r2 : Reader :=
    if finished then
      { r1 with queue := { r1.queue.pause now with state := QState.finished } }
    else r1
  let idx := number + 2
  if r2.fragments.length ≤ idx then
    { reader := r2, finishRaised := finished, loadInvoked := idx,
      fetchIssued := false, scheduled := none }
  else if r2.isFragmentLoaded idx then
    { reader := r2.scheduleFragment now idx 0, finishRaised := finished,
      loadInvoked := idx, fetchIssued := false, scheduled := some idx }
  else
    { reader := r2, finishRaised := finished, loadInvoked := idx,
      fetchIssued := true, scheduled := none }

/-- The fragment-number computation of `setCurrentTime`:
`Math.floor(time / FRAGMENT_DURATION)`, stored into
`currentFragmentNumber` (a non-negative index for the times `t ≥ 0` the
claims range over). -/
def seekTargetFragment (time : ℚ) : ℕ :=
  (⌊time / FRAGMENT_DURATION⌋).toNat

/-- The offset computation of `setCurrentTime`:
`time % FRAGMENT_DURATION` — for `time ≥ 0` the JS remainder equals
`time - FRAGMENT_DURATION * ⌊time / FRAGMENT_DURATION⌋`. -/
def seekOffset (time : ℚ) : ℚ :=
  time - FRAGMENT_DURATION * ⌊time / FRAGMENT_DURATION⌋

/-- The observable outcome of the synchronous `setup()` body of the
(debounced) `Reader.prototype.setCurrentTime(time)`, up to the point
where `loadFragment(number, …)` is invoked:

* `bufferingStartRaised` — `player.onBufferingStart()` was called;
* `pendingLoad` / `pendingOffset` — the fragment index handed to
  `loadFragment` at the end of the body, and the offset captured by its
  continuation (`Reader.seekLoadCallback`). -/
structure SeekSetupResult where
  reader : Reader
  bufferingStartRaised : Bool
  pendingLoad : ℕ
  pendingOffset : ℚ
deriving DecidableEq, Repr

/-- The `setup()` body of `setCurrentTime(time)` (the debounced seek,
once metadata is available): computes the target fragment and offset,
sets `currentFragmentNumber`, pauses the queue, sets `buffering`,
raises buffering-start, empties the queue, and finally invokes
`loadFragment(number, …)`.  (`jumped` was set to `true` on entry.) -/
def Reader.seekSetup (now time : ℚ) (r : Reader) : SeekSetupResult :=
  let number := seekTargetFragment time
  let offset := seekOffset time
  let r1 : Reader := { r with jumped := true, currentFragmentNumber := number }
  let r2 : Reader := { r1 with queue := r1.queue.pause now, buffering := true }
  let r3 : Reader := { r2 with queue := r2.queue.empty }
  { reader := r3, bufferingStartRaised := true,
    pendingLoad := number, pendingOffset := offset }

/-- The observable outcome of the seek's `loadFragment` continuation. -/
structure SeekResumeResult where
  reader : Reader
  bufferingStopRaised : Bool
  staleDiscarded : Bool
  nextFetchIssued : Bool
deriving DecidableEq, Repr

/-- The continuation passed to `loadFragment(number, …)` by the seek
body: discards itself when `currentFragmentNumber !== number` (a newer
seek superseded this one); otherwise raises buffering-stop, clears
`buffering`, plays the queue, schedules fragment `number` at `offset`,
and runs `loadAndScheduleFragment(number + 1)` (no-op out of range,
synchronous schedule when loaded, transport fetch otherwise). -/
def Reader.seekLoadCallback (now : ℚ) (number : ℕ) (offset : ℚ) (r : Reader) :
    SeekResumeResult :=
  if r.currentFragmentNumber ≠ number then
    { reader := r, bufferingStopRaised := false,
      staleDiscarded := true, nextFetchIssued := false }
  else
    let r1 : Reader := { r with buffering := false }
    let r2 : Reader := { r1 with queue := r1.queue.play now }
    let r3 : Reader := r2.scheduleFragment now number offset
    let idx := number + 1
    if r3.fragments.length ≤ idx then
      { reader := r3, bufferingStopRaised := true,
        staleDiscarded := false, nextFetchIssued := false }
    else if r3.isFragmentLoaded idx then
      { reader := r3.scheduleFragment now idx 0, bufferingStopRaised := true,
        staleDiscarded := false, nextFetchIssued := false }
    else
      { reader := r3, bufferingStopRaised := true,
        staleDiscarded := false, nextFetchIssued := true }

theorem getD_set_self {α : Type} (l : List α) (i : ℕ) (a d : α)
    (h : i < l.length) : (l.set i a).getD i d = a := by
  rw [List.getD_eq_getElem _ _ (by simpa using h)]
  simp

/-- **C8.** Out-of-range load is a silent no-op: for every index `≥
fragments.length`, `loadFragment(index, callback)` returns without
invoking the callback, without issuing a transport fetch, and with the
reader (hence its queue) unchanged. -/
theorem out_of_range_load_noop (r : Reader) (number : ℕ)
    (h : r.fragments.length ≤ number) :
    r.loadFragmentStart number
      = { reader := r, fetched := false, syncCallback := false } := by
  simp [Reader.loadFragmentStart, h]

/-- **C8 witness.** A one-fragment reader asked to load fragment `3`. -/
theorem out_of_range_load_noop_witness :
    Reader.loadFragmentStart 3 ⟨[⟨false, 15⟩], 0, false, false, SourceQueue.init⟩
      = { reader := ⟨[⟨false, 15⟩], 0, false, false, SourceQueue.init⟩,
          fetched := false, syncCallback := false } :=
  out_of_range_load_noop ⟨[⟨false, 15⟩], 0, false, false, SourceQueue.init⟩ 3
    (by decide)

/-- **C4 counterexample.** Two `loadFragment(0)` calls issued before the
first load completes (the buffer is written only by the asynchronous
decode continuation) each perform their own transport fetch: two
fetches, not the claimed single one. -/
theorem concurrent_load_double_fetch :
    (cond (Reader.loadFragmentStart 0
        ⟨[⟨false, 15⟩], 0, false, false, SourceQueue.init⟩).fetched 1 0)
      + (cond ((Reader.loadFragmentStart 0
            ⟨[⟨false, 15⟩], 0, false, false, SourceQueue.init⟩).reader.loadFragmentStart
              0).fetched 1 0) = 2 := by
  decide

/-- **C4 (amended).** If fragment `i` is already loaded,
`loadFragment(i)` invokes its callback synchronously with no transport
fetch and no state change.  But concurrent calls before the first load
completes are **not** deduplicated: the synchronous part leaves the
reader unchanged and each such call issues its own transport fetch and
decrypt/decode (so N concurrent calls trigger N fetches, not one);
deduplication takes effect only once a load has completed and stored
the buffer, after which further calls return synchronously without
fetching.  Each caller's continuation is still invoked — synchronously
when loaded, else by its own load's completion. -/
theorem load_dedup_amended (r : Reader) (i : ℕ) (hi : i < r.fragments.length) :
    (r.isFragmentLoaded i = true →
        r.loadFragmentStart i
          = { reader := r, fetched := false, syncCallback := true }) ∧
    (r.isFragmentLoaded i = false →
        (r.loadFragmentStart i).fetched = true ∧
        (r.loadFragmentStart i).reader = r ∧
        ((r.loadFragmentStart i).reader.loadFragmentStart i).fetched = true) ∧
    ((r.loadFragmentComplete i).loadFragmentStart i).fetched = false ∧
    ((r.loadFragmentComplete i).loadFragmentStart i).syncCallback = true := by
  have hlen : (r.loadFragmentComplete i).fragments.length = r.fragments.length := by
    simp [Reader.loadFragmentComplete]
  have hloaded : (r.loadFragmentComplete i).isFragmentLoaded i = true := by
    unfold Reader.isFragmentLoaded Reader.fragmentAt Reader.loadFragmentComplete
    rw [getD_set_self _ _ _ _ hi]
  refine ⟨?_, ?_, ?_, ?_⟩
  · intro h
    simp [Reader.loadFragmentStart, Nat.not_le.mpr hi, h]
  · intro h
    refine ⟨?_, ?_, ?_⟩ <;>
      simp [Reader.loadFragmentStart, Nat.not_le.mpr hi, h]
  · simp [Reader.loadFragmentStart, hlen, Nat.not_le.mpr hi, hloaded]
  · simp [Reader.loadFragmentStart, hlen, Nat.not_le.mpr hi, hloaded]

/-- **C4 (amended) witness.** A two-fragment reader: fragment `0`
loaded (synchronous callback, no fetch), fragment `1` unloaded. -/
theorem load_dedup_amended_witness :
    ((Reader.isFragmentLoaded ⟨[⟨true, 15⟩, ⟨false, 15⟩], 0, false, false,
          SourceQueue.init⟩ 1 = true →
        Reader.loadFragmentStart 1
            ⟨[⟨true, 15⟩, ⟨false, 15⟩], 0, false, false, SourceQueue.init⟩
          = { reader := ⟨[⟨true, 15⟩, ⟨false, 15⟩], 0, false, false,
                SourceQueue.init⟩,
              fetched := false, syncCallback := true }) ∧
      (Reader.isFragmentLoaded ⟨[⟨true, 15⟩, ⟨false, 15⟩], 0, false, false,
          SourceQueue.init⟩ 1 = false →
        (Reader.loadFragmentStart 1
            ⟨[⟨true, 15⟩, ⟨false, 15⟩], 0, false, false,
              SourceQueue.init⟩).fetched = true ∧
        (Reader.loadFragmentStart 1
            ⟨[⟨true, 15⟩, ⟨false, 15⟩], 0, false, false,
              SourceQueue.init⟩).reader
          = ⟨[⟨true, 15⟩, ⟨false, 15⟩], 0, false, false, SourceQueue.init⟩ ∧
        ((Reader.loadFragmentStart 1
            ⟨[⟨true, 15⟩, ⟨false, 15⟩], 0, false, false,
              SourceQueue.init⟩).reader.loadFragmentStart 1).fetched = true) ∧
      ((Reader.loadFragmentComplete 1
          ⟨[⟨true, 15⟩, ⟨false, 15⟩], 0, false, false,
            SourceQueue.init⟩).loadFragmentStart 1).fetched = false ∧
      ((Reader.loadFragmentComplete 1
          ⟨[⟨true, 15⟩, ⟨false, 15⟩], 0, false, false,
            SourceQueue.init⟩).loadFragmentStart 1).syncCallback = true) :=
  load_dedup_amended
    ⟨[⟨true, 15⟩, ⟨false, 15⟩], 0, false, false, SourceQueue.init⟩ 1 (by decide)

theorem pause_state_paused (now : ℚ) (q : SourceQueue) :
    (q.pause now).state = QState.paused := by
  by_cases h : q.state = QState.paused
  · simp only [SourceQueue.pause, if_pos h]
    exact h
  · cases hs : q.sources <;> simp [SourceQueue.pause, h, hs]

theorem pause_cancels (now : ℚ) (q : SourceQueue)
    (h : ¬ q.state = QState.paused) :
    ∀ u ∈ (q.pause now).sources, u.nodeActive = false ∧ u.endTimerSet = false := by
  cases hs : q.sources with
  | nil => simp [SourceQueue.pause, h, hs]
  | cons s rest =>
      have hp : q.pause now
          = { state := QState.paused,
              latestElapsed := some (s.elapsed now),
              sources := { s.cancel with startsFrom := s.elapsed now }
                :: rest.map Source.cancel } := by
        simp [SourceQueue.pause, h, hs]
      rw [hp]
      intro u hu
      rcases List.mem_cons.mp hu with h1 | h2
      · subst h1; exact ⟨rfl, rfl⟩
      · rcases List.mem_map.mp h2 with ⟨v, _, rfl⟩; exact ⟨rfl, rfl⟩

theorem push_state (now dur : ℚ) (n : ℕ) (f : ℚ) (q : SourceQueue) :
    (q.push now dur n f).state = q.state := by
  unfold SourceQueue.push
  split_ifs <;> rfl

/-- **C3.** End-of-fragment chaining.  The `onEnd` handler installed by
`scheduleFragment(i, offset)` (a) sets `currentFragmentNumber = i + 1`;
(b) when `i + 1` is not less than the number of fragments it pauses the
queue (every unit's node and end timer cancelled), sets its state to
`Finished` and raises the finished event, and nothing is scheduled or
fetched; (c) otherwise no finish is raised and the handler begins
loading fragment `i + 2` — the two-ahead prefetch (`loadFragment(i+2)`
is invoked: a transport fetch when `i + 2` is in range and unloaded, a
synchronous schedule when already loaded, a silent no-op past the end
of the catalog). -/
theorem end_of_fragment_chaining (r : Reader) (number : ℕ) (now : ℚ)
    (hstate : r.queue.state = QState.playing) :
    (r.onEnd now number).reader.currentFragmentNumber = number + 1 ∧
    (r.onEnd now number).loadInvoked = number + 2 ∧
    (r.fragments.length ≤ number + 1 →
        (r.onEnd now number).reader.queue.state = QState.finished ∧
        (r.onEnd now number).finishRaised = true ∧
        (∀ u ∈ (r.onEnd now number).reader.queue.sources,
            u.nodeActive = false ∧ u.endTimerSet = false) ∧
        (r.onEnd now number).scheduled = none ∧
        (r.onEnd now number).fetchIssued = false) ∧
    (number + 1 < r.fragments.length →
        (r.onEnd now number).finishRaised = false ∧
        (r.onEnd now number).reader.queue.state = QState.playing ∧
        (number + 2 < r.fragments.length →
            r.isFragmentLoaded (number + 2) = false →
            (r.onEnd now number).fetchIssued = true ∧
            (r.onEnd now number).scheduled = none) ∧
        (number + 2 < r.fragments.length →
            r.isFragmentLoaded (number + 2) = true →
            (r.onEnd now number).scheduled = some (number + 2) ∧
            (r.onEnd now number).fetchIssued = false) ∧
        (r.fragments.length ≤ number + 2 →
            (r.onEnd now number).fetchIssued = false ∧
            (r.onEnd now number).scheduled = none)) := by
  have hnp : ¬ r.queue.state = QState.paused := by
    rw [hstate]; decide
  by_cases hfin : r.fragments.length ≤ number + 1
  · have hfin2 : r.fragments.length ≤ number + 2 := by omega
    have hres : r.onEnd now number
        = { reader :=
              { r with
                currentFragmentNumber := number + 1,
                queue := { (r.queue.pause now) with state := QState.finished } },
            finishRaised := true, loadInvoked := number + 2,
            fetchIssued := false, scheduled := none } := by
      simp [Reader.onEnd, hfin, hfin2]
    rw [hres]
    refine ⟨rfl, rfl, ?_, ?_⟩
    · intro _
      exact ⟨rfl, rfl, pause_cancels now r.queue hnp, rfl, rfl⟩
    · intro hlt; omega
  · push_neg at hfin
    have hfin' : ¬ r.fragments.length ≤ number + 1 := by omega
    by_cases h2 : r.fragments.length ≤ number + 2
    · have hres : r.onEnd now number
          = { reader := { r with currentFragmentNumber := number + 1 },
              finishRaised := false, loadInvoked := number + 2,
              fetchIssued := false, scheduled := none } := by
        simp [Reader.onEnd, hfin', h2]
      rw [hres]
      refine ⟨rfl, rfl, fun hle => absurd hfin (by omega), fun _ => ?_⟩
      exact ⟨rfl, hstate, fun hlt _ => by omega, fun hlt _ => by omega,
        fun _ => ⟨rfl, rfl⟩⟩
    · push_neg at h2
      have h2' : ¬ r.fragments.length ≤ number + 2 := by omega
      by_cases hld : r.isFragmentLoaded (number + 2) = true
      · have hld2 : ({ r with currentFragmentNumber := number + 1 } :
            Reader).isFragmentLoaded (number + 2) = true := hld
        have hres : r.onEnd now number
            = { reader := Reader.scheduleFragment now (number + 2) 0
                  { r with currentFragmentNumber := number + 1 },
                finishRaised := false, loadInvoked := number + 2,
                fetchIssued := false, scheduled := some (number + 2) } := by
          simp [Reader.onEnd, hfin', h2', hld2]
        rw [hres]
        refine ⟨rfl, rfl, fun hle => absurd hfin (by omega),
          fun _ => ⟨rfl, ?_, ?_, ?_, ?_⟩⟩
        · show (SourceQueue.push _ _ _ _ _).state = QState.playing
          rw [push_state]
          exact hstate
        · intro _ hcon
          rw [hld] at hcon
          cases hcon
        · intro _ _
          exact ⟨rfl, rfl⟩
        · intro hle
          omega
      · have hldf : ({ r with currentFragmentNumber := number + 1 } :
            Reader).isFragmentLoaded (number + 2) = false := by
          simpa using hld
        have hres : r.onEnd now number
            = { reader := { r with currentFragmentNumber := number + 1 },
                finishRaised := false, loadInvoked := number + 2,
                fetchIssued := true, scheduled := none } := by
          simp [Reader.onEnd, hfin', h2', hldf]
        rw [hres]
        refine ⟨rfl, rfl, fun hle => absurd hfin (by omega),
          fun _ => ⟨rfl, hstate, ?_, ?_, ?_⟩⟩
        · intro _ _
          exact ⟨rfl, rfl⟩
        · intro _ hcon
          exact absurd hcon hld
        · intro hle
          omega

/-- **C3 witness.** A playing three-fragment reader whose fragment `0`
just ended: `currentFragmentNumber` advances to `1` and the two-ahead
prefetch issues a transport fetch for fragment `2`. -/
theorem end_of_fragment_chaining_witness :
    (Reader.onEnd 5 0 ⟨[⟨true, 15⟩, ⟨true, 15⟩, ⟨false, 15⟩], 0, false, false,
        { state := QState.playing, sources := [⟨15, 0, 0, 0, true, true⟩],
          latestElapsed := none }⟩).reader.currentFragmentNumber = 0 + 1 ∧
    (Reader.onEnd 5 0 ⟨[⟨true, 15⟩, ⟨true, 15⟩, ⟨false, 15⟩], 0, false, false,
        { state := QState.playing, sources := [⟨15, 0, 0, 0, true, true⟩],
          latestElapsed := none }⟩).loadInvoked = 0 + 2 :=
  ⟨(end_of_fragment_chaining
      ⟨[⟨true, 15⟩, ⟨true, 15⟩, ⟨false, 15⟩], 0, false, false,
        { state := QState.playing, sources := [⟨15, 0, 0, 0, true, true⟩],
          latestElapsed := none }⟩ 0 5 rfl).1,
   (end_of_fragment_chaining
      ⟨[⟨true, 15⟩, ⟨true, 15⟩, ⟨false, 15⟩], 0, false, false,
        { state := QState.playing, sources := [⟨15, 0, 0, 0, true, true⟩],
          latestElapsed := none }⟩ 0 5 rfl).2.1⟩

/-- The concrete 4-fragment track of the spec's seek scenario
(`FRAGMENT_DURATION = 15`, fragments `[0,15) [15,30) [30,45) [45,47)`),
mid-play on fragment 0, with fragment 2 already loaded and fragment 3
not yet loaded. -/
def seekScenarioReader : Reader :=
  { fragments := [⟨false, 15⟩, ⟨false, 15⟩, ⟨true, 15⟩, ⟨false, 2⟩],
    currentFragmentNumber := 0, buffering := false, jumped := false,
    queue := { state := QState.playing,
               sources := [⟨15, 0, 0, 0, true, true⟩],
               latestElapsed := none } }

/-- **C2.** Seek arithmetic.  For every `t ≥ 0` the (debounced) seek
body computes the target fragment `⌊t / FRAGMENT_DURATION⌋` and the
offset `t mod FRAGMENT_DURATION` (the unique decomposition
`t = target * FRAGMENT_DURATION + offset` with
`0 ≤ offset < FRAGMENT_DURATION`), stores the target into
`currentFragmentNumber`, pauses and empties the queue, and signals
buffering-start, all before handing `target` to `loadFragment`.  In the
4-fragment scenario, `setCurrentTime(40)` yields
`currentFragmentNumber = 2` and `offset = 10`, and once buffering
resolves (the load continuation runs, at any clock time `T`) fragment 2
is the single scheduled unit, with `startsFrom = 10`, and
`getCurrentTime() = 40`. -/
theorem seek_arithmetic (r : Reader) (t now : ℚ) (ht : 0 ≤ t) :
    (r.seekSetup now t).reader.currentFragmentNumber
        = (⌊t / FRAGMENT_DURATION⌋).toNat ∧
    (r.seekSetup now t).pendingLoad = (⌊t / FRAGMENT_DURATION⌋).toNat ∧
    (r.seekSetup now t).pendingOffset
        = t - FRAGMENT_DURATION * ⌊t / FRAGMENT_DURATION⌋ ∧
    0 ≤ (r.seekSetup now t).pendingOffset ∧
    (r.seekSetup now t).pendingOffset < FRAGMENT_DURATION ∧
    ((r.seekSetup now t).reader.currentFragmentNumber : ℚ) * FRAGMENT_DURATION
        + (r.seekSetup now t).pendingOffset = t ∧
    (r.seekSetup now t).reader.queue.state = QState.paused ∧
    (r.seekSetup now t).reader.queue.sources = [] ∧
    (r.seekSetup now t).reader.buffering = true ∧
    (r.seekSetup now t).bufferingStartRaised = true ∧
    seekTargetFragment 40 = 2 ∧
    seekOffset 40 = 10 ∧
    (∀ T : ℚ,
      (((seekScenarioReader.seekSetup now 40).reader.seekLoadCallback T 2
          10).reader.getCurrentTime T) = 40 ∧
      ((seekScenarioReader.seekSetup now 40).reader.seekLoadCallback T 2
          10).reader.queue.sources.map Source.number = [2] ∧
      (((seekScenarioReader.seekSetup now 40).reader.seekLoadCallback T 2
          10).reader.queue.sources.head?.map Source.startsFrom) = some 10) := by
  have hFD : (0:ℚ) < FRAGMENT_DURATION := by norm_num [FRAGMENT_DURATION]
  have hdiv : (0:ℚ) ≤ t / FRAGMENT_DURATION := by positivity
  have hflo : (0:ℤ) ≤ ⌊t / FRAGMENT_DURATION⌋ := Int.floor_nonneg.mpr hdiv
  have hmul : FRAGMENT_DURATION * (t / FRAGMENT_DURATION) = t := by
    field_simp
  have hlow : FRAGMENT_DURATION * ((⌊t / FRAGMENT_DURATION⌋ : ℤ) : ℚ)
      ≤ FRAGMENT_DURATION * (t / FRAGMENT_DURATION) :=
    mul_le_mul_of_nonneg_left (Int.floor_le _) (le_of_lt hFD)
  have hhigh : FRAGMENT_DURATION * (t / FRAGMENT_DURATION)
      < FRAGMENT_DURATION * (((⌊t / FRAGMENT_DURATION⌋ : ℤ) : ℚ) + 1) :=
    mul_lt_mul_of_pos_left (Int.lt_floor_add_one _) hFD
  rw [hmul] at hlow hhigh
  have hT2 : seekTargetFragment 40 = 2 := by
    norm_num [seekTargetFragment, FRAGMENT_DURATION, show Int.toNat 2 = 2 from rfl]
  have hO10 : seekOffset 40 = 10 := by
    norm_num [seekOffset, FRAGMENT_DURATION]
  refine ⟨rfl, rfl, rfl, ?_, ?_, ?_, ?_, rfl, rfl, rfl, hT2, hO10, ?_⟩
  · show 0 ≤ seekOffset t
    unfold seekOffset
    linarith
  · show seekOffset t < FRAGMENT_DURATION
    unfold seekOffset
    linarith
  · show ((seekTargetFragment t : ℕ) : ℚ) * FRAGMENT_DURATION + seekOffset t = t
    unfold seekTargetFragment seekOffset
    have hcast : ((⌊t / FRAGMENT_DURATION⌋.toNat : ℕ) : ℚ)
        = ((⌊t / FRAGMENT_DURATION⌋ : ℤ) : ℚ) := by
      exact_mod_cast Int.toNat_of_nonneg hflo
    rw [hcast]
    ring
  · show ((r.seekSetup now t).reader.queue).state = QState.paused
    simp [Reader.seekSetup, SourceQueue.empty, pause_state_paused]
  · intro T
    refine ⟨?_, ?_, ?_⟩ <;>
      simp [Reader.seekSetup, Reader.seekLoadCallback, Reader.scheduleFragment,
        Reader.getCurrentTime, Reader.fragmentAt, Reader.isFragmentLoaded,
        SourceQueue.pause, SourceQueue.empty, SourceQueue.play, SourceQueue.push,
        SourceQueue.elapsed, setupAll, Source.setupSchedule, Source.elapsed,
        undefinedQueueField, seekScenarioReader, hT2, hO10, FRAGMENT_DURATION]
    norm_num

/-- **C2 witness.** The scenario reader, seek body run at clock `0`
with `t = 40`, continuation run at clock `7`. -/
theorem seek_arithmetic_witness :
    (seekScenarioReader.seekSetup 0 40).reader.currentFragmentNumber
        = (⌊(40 : ℚ) / FRAGMENT_DURATION⌋).toNat ∧
    (((seekScenarioReader.seekSetup 0 40).reader.seekLoadCallback 7 2
        10).reader.getCurrentTime 7) = 40 :=
  ⟨(seek_arithmetic seekScenarioReader 40 0 (by norm_num)).1,
   ((seek_arithmetic seekScenarioReader 40 0
      (by norm_num)).2.2.2.2.2.2.2.2.2.2.2.2 7).1⟩

/-- The debounce window of
`Reader.prototype.setCurrentTime = _.debounce(function (time) {…}, 300)`,
in milliseconds. -/
def DEBOUNCE_DELAY : ℚ := 300

/-- Modelled from the spec: the lodash `_.debounce(fn, 300)` wrapper
around the seek body is an external library collaborator (not part of
this repository's sources); the spec describes its trailing-edge
semantics — each call re-arms a `delay` timer, and the pending
invocation fires, with the most recent argument, only when `delay`
elapses with no newer call.  For a time-ordered call list
`(time, seekTarget)`, call `i`'s pending invocation therefore fires
exactly when it is the final call or the next call arrives at least
`delay` later; the returned list holds the argument of every firing
invocation in order — each entry is one execution of the seek body
(one pause, one queue-emptying, one load). -/
def debouncedFires (delay : ℚ) : List (ℚ × ℚ) → List ℚ
  | [] => []
  | [(_, v)] => [v]
  | (t1, v1) :: (t2, v2) :: rest =>
      if t2 - t1 < delay then debouncedFires delay ((t2, v2) :: rest)
      else v1 :: debouncedFires delay ((t2, v2) :: rest)

/-- **C7.** Debounce collapse of seeks: a burst of `setCurrentTime`
calls in which each call follows its predecessor within the ≈300 ms
debounce window produces exactly one effective seek, carrying the last
requested time; the earlier calls of the burst fire nothing — hence no
pause, no queue emptying, and no load is performed for them. -/
theorem debounce_collapse (c : ℚ × ℚ) (cs : List (ℚ × ℚ))
    (hburst : List.Chain' (fun a b => b.1 - a.1 < DEBOUNCE_DELAY) (c :: cs)) :
    debouncedFires DEBOUNCE_DELAY (c :: cs)
        = [((c :: cs).getLast (List.cons_ne_nil c cs)).2] ∧
    (debouncedFires DEBOUNCE_DELAY (c :: cs)).length = 1 := by
  have key : debouncedFires DEBOUNCE_DELAY (c :: cs)
      = [((c :: cs).getLast (List.cons_ne_nil c cs)).2] := by
    induction cs generalizing c with
    | nil =>
        obtain ⟨t1, v1⟩ := c
        rfl
    | cons c2 cs' ih =>
        obtain ⟨t1, v1⟩ := c
        obtain ⟨t2, v2⟩ := c2
        have hgap : t2 - t1 < DEBOUNCE_DELAY :=
          (List.chain'_cons.mp hburst).1
        have htail : List.Chain' (fun a b => b.1 - a.1 < DEBOUNCE_DELAY)
            ((t2, v2) :: cs') := (List.chain'_cons.mp hburst).2
        rw [List.getLast_cons (List.cons_ne_nil _ _)]
        rw [← ih (t2, v2) htail]
        simp [debouncedFires, hgap]
  exact ⟨key, by rw [key]; rfl⟩

/-- **C7 witness.** Three seeks at times `0, 100, 250` ms targeting
`10, 20, 40` s: one effective seek, to `40`. -/
theorem debounce_collapse_witness :
    debouncedFires DEBOUNCE_DELAY [(0, 10), (100, 20), (250, 40)]
        = [(([(0, 10), (100, 20), (250, 40)] :
            List (ℚ × ℚ)).getLast (List.cons_ne_nil _ _)).2] ∧
    (debouncedFires DEBOUNCE_DELAY
        [(0, 10), (100, 20), (250, 40)]).length = 1 :=
  debounce_collapse (0, 10) [(100, 20), (250, 40)]
    (by norm_num [DEBOUNCE_DELAY])

/-- The volume / mute state of a `Manager`: `muted` and `volume` are
the flags the methods assign, `gainValue` is `this.gain.gain.value` of
the shared gain node actually scaling the audio output. -/
structure ManagerAudio where
  muted : Bool
  volume : ℚ
  gainValue : ℚ
deriving DecidableEq, Repr

/-- `Manager.prototype.mute`: `muted = true; gain.gain.value = 0.0`
(then `onMute()`). -/
def ManagerAudio.mute (m : ManagerAudio) : ManagerAudio :=
  { m with muted := true, gainValue := 0 }

/-- `Manager.prototype.setVolume(volume)`:
`this.volume = volume; gain.gain.value = volume` (then
`onVolumeChange()`) — the `muted` flag is not touched. -/
def ManagerAudio.setVolume (volume : ℚ) (m : ManagerAudio) : ManagerAudio :=
  { m with volume := volume, gainValue := volume }

/-- `Manager.prototype.unmute`: `muted = false` then
`setVolume(this.volume)` (then `onUnmute()`). -/
def ManagerAudio.unmute (m : ManagerAudio) : ManagerAudio :=
  ManagerAudio.setVolume m.volume { m with muted := false }

/-- **C9.** The muted-implies-silent invariant is not preserved by
`setVolume`: after `mute()` (gain `0`, `muted = true`), a
`setVolume(v)` with `v ≠ 0` drives the shared gain to `v` — audible
output — while the `muted` flag still reports `true`. -/
theorem mute_then_setVolume_audible (m : ManagerAudio) (v : ℚ) (hv : v ≠ 0) :
    (m.mute.setVolume v).gainValue = v ∧
    (m.mute.setVolume v).gainValue ≠ 0 ∧
    (m.mute.setVolume v).muted = true := by
  exact ⟨rfl, hv, rfl⟩

/-- **C9 witness.** `mute()` then `setVolume(1/2)` on a fresh manager
(`muted = false`, `volume = 1`, unit gain). -/
theorem mute_then_setVolume_audible_witness :
    ((ManagerAudio.mute ⟨false, 1, 1⟩).setVolume (1/2)).gainValue = 1/2 ∧
    ((ManagerAudio.mute ⟨false, 1, 1⟩).setVolume (1/2)).gainValue ≠ 0 ∧
    ((ManagerAudio.mute ⟨false, 1, 1⟩).setVolume (1/2)).muted = true :=
  mute_then_setVolume_audible ⟨false, 1, 1⟩ (1/2) (by norm_num)

/-- A `Player` as tracked by a `Manager`: its `id` (set to
`this.players.length` at creation) and the source queue that
`player.pause()` forwards to (`this.reader.queue.pause()`). -/
structure PlayerObj where
  id : ℕ
  queue : SourceQueue
deriving DecidableEq, Repr

/-- `Player.prototype.pause`: `this.reader.queue.pause()`. -/
def PlayerObj.pause (now : ℚ) (p : PlayerObj) : PlayerObj :=
  { p with queue := p.queue.pause now }

/-- The object literal assigned once by
`Manager.prototype = { players: [], muted: false, volume: 1.0, … }`:
its `players` array is a single object, referenced through the
prototype by every `Manager` instance ever constructed. -/
structure ManagerProto where
  players : List PlayerObj
deriving DecidableEq, Repr

/-- A `Manager` instance.  The constructor defines `context` and `gain`
as own properties but never assigns `this.players`, so a constructed
manager has no own `players` property (`ownPlayers = none`) and the
lookup `this.players` resolves to the prototype's shared array. -/
structure ManagerObj where
  ownPlayers : Option (List PlayerObj)
deriving DecidableEq, Repr

/-- `new Manager()`. -/
def mkManager : ManagerObj := { ownPlayers := none }

/-- The property lookup `this.players`: the own property when defined,
else the prototype's shared array. -/
def ManagerObj.players (m : ManagerObj) (proto : ManagerProto) :
    List PlayerObj :=
  m.ownPlayers.getD proto.players

/-- `Manager.prototype.add(path, config)`: constructs a player and runs
`this.players.push(player)` — `push` mutates, in place, the array that
the `this.players` lookup resolved to; for a constructed manager (no
own `players`) that is the prototype's shared array, so the new entry
becomes visible to every manager.  (`p` stands for the freshly
constructed player; with an own array — which no constructed manager
has — the own array would be extended and the prototype untouched.) -/
def ManagerObj.add (p : PlayerObj) (proto : ManagerProto) (m : ManagerObj) :
    ManagerProto × ManagerObj :=
  match m.ownPlayers with
  | none => ({ players := proto.players ++ [p] }, m)
  | some l => (proto, { ownPlayers := some (l ++ [p]) })

/-- `Manager.prototype.pauseAll(id)`: calls `this.players[i].pause()`
for every entry of `this.players` (the additional buffering-poll branch
only re-pauses still-buffering readers later and touches no
non-buffering player). -/
def ManagerObj.pauseAll (now : ℚ) (proto : ManagerProto) (m : ManagerObj) :
    ManagerProto :=
  match m.ownPlayers with
  | none => { players := proto.players.map (PlayerObj.pause now) }
  | some _ => proto

/-- `Manager.prototype.destroyUnused`:
`while (this.players.length > 1) this.players.shift().destroy()` —
repeatedly destroys the front entry until only the most recently added
player remains. -/
def ManagerObj.destroyUnused (proto : ManagerProto) (m : ManagerObj) :
    ManagerProto :=
  match m.ownPlayers with
  | none =>
      { players :=
          match proto.players.getLast? with
          | none => []
          | some p => [p] }
  | some _ => proto

/-- **C10.** All `Manager` instances share one `players` array, stored
on `Manager.prototype`: for any two constructed managers `m1` and `m2`,
a player added through `m1` appears in `m2.players` (both lookups
resolve to the same, now-extended array — `m1.add` did not leave `m2`'s
player list unchanged), `m2.pauseAll()` pauses it (every entry of
`m2.players` ends up with a paused queue), and once a further player is
added, `m2.destroyUnused()` destroys it, keeping only the latest
addition. -/
theorem prototype_shared_players
    (proto : ManagerProto) (m1 m2 : ManagerObj) (p p2 : PlayerObj) (now : ℚ)
    (h1 : m1.ownPlayers = none) (h2 : m2.ownPlayers = none) :
    m2.players ((m1.add p proto).1) = m1.players ((m1.add p proto).1) ∧
    p ∈ m2.players ((m1.add p proto).1) ∧
    m2.players ((m1.add p proto).1) = m2.players proto ++ [p] ∧
    p.pause now ∈ (m2.pauseAll now ((m1.add p proto).1)).players ∧
    (∀ u ∈ (m2.pauseAll now ((m1.add p proto).1)).players,
        u.queue.state = QState.paused) ∧
    (m2.destroyUnused ((m2.add p2 ((m1.add p proto).1)).1)).players = [p2] := by
  have hadd : (m1.add p proto).1 = { players := proto.players ++ [p] } := by
    simp [ManagerObj.add, h1]
  have hadd2 : (m2.add p2 ((m1.add p proto).1)).1
      = { players := (proto.players ++ [p]) ++ [p2] } := by
    simp [ManagerObj.add, h1, h2]
  refine ⟨?_, ?_, ?_, ?_, ?_, ?_⟩
  · rw [hadd]
    simp [ManagerObj.players, h1, h2]
  · rw [hadd]
    simp [ManagerObj.players, h2]
  · rw [hadd]
    simp [ManagerObj.players, h2]
  · rw [hadd]
    simp only [ManagerObj.pauseAll, h2]
    exact List.mem_map_of_mem _ (by simp)
  · rw [hadd]
    simp only [ManagerObj.pauseAll, h2]
    intro u hu
    rcases List.mem_map.mp hu with ⟨v, _, rfl⟩
    exact pause_state_paused now v.queue
  · rw [hadd2]
    simp [ManagerObj.destroyUnused, h2, List.getLast?_concat]

/-- **C10 witness.** Two fresh managers and an empty prototype array:
the player added through the first manager is seen, paused, and later
destroyed through the second. -/
theorem prototype_shared_players_witness :
    mkManager.players ((mkManager.add ⟨0, SourceQueue.init⟩ ⟨[]⟩).1)
        = mkManager.players ((mkManager.add ⟨0, SourceQueue.init⟩ ⟨[]⟩).1) ∧
    (⟨0, SourceQueue.init⟩ : PlayerObj)
        ∈ mkManager.players ((mkManager.add ⟨0, SourceQueue.init⟩ ⟨[]⟩).1) ∧
    mkManager.players ((mkManager.add ⟨0, SourceQueue.init⟩ ⟨[]⟩).1)
        = mkManager.players ⟨[]⟩ ++ [⟨0, SourceQueue.init⟩] ∧
    PlayerObj.pause 3 ⟨0, SourceQueue.init⟩
        ∈ (mkManager.pauseAll 3
            ((mkManager.add ⟨0, SourceQueue.init⟩ ⟨[]⟩).1)).players ∧
    (∀ u ∈ (mkManager.pauseAll 3
        ((mkManager.add ⟨0, SourceQueue.init⟩ ⟨[]⟩).1)).players,
        u.queue.state = QState.paused) ∧
    (mkManager.destroyUnused
        ((mkManager.add ⟨1, SourceQueue.init⟩
          ((mkManager.add ⟨0, SourceQueue.init⟩ ⟨[]⟩).1)).1)).players
      = [⟨1, SourceQueue.init⟩] :=
  prototype_shared_players ⟨[]⟩ mkManager mkManager
    ⟨0, SourceQueue.init⟩ ⟨1, SourceQueue.init⟩ 3 rfl rfl

end Diaes
